import Mathlib

/-
Verification of the multithreaded data-generation core of
`src/queue_multithread.py` (class `DataGenerator`, class `CSVWriter`).

The embedding models:
- the data model (`Record`) and the two closed value pools
  (`_generate_name`, `_generate_city`);
- `DataGenerator.generate_data` and `_generate_worker` under the fully
  sequential worker schedule, with the process-global `random` module
  modelled as a stream `g : Nat → Nat` together with a cursor `pos`
  giving the next draw position (one draw per call to `random.randint`
  or `random.choice`);
- a schedule-quantified semantics (`canProduce`) for the genuinely
  concurrent behaviour: a schedule lists which worker performs each
  successive draw from the shared global stream, and the drained queue
  is an arbitrary interleaving (hence a permutation) of the workers'
  push sequences;
- a variant with an injected fallible generation step
  (`generate_data_fallible`), reflecting Python semantics: an exception
  in a worker's loop body kills that worker thread, records it already
  pushed stay in the queue, `generate_data` joins every thread and
  returns the drained queue normally;
- `CSVWriter.write_to_csv`, as the row structure it emits.
-/

namespace QueueMT

/-- Record: one synthetic data row with the four fields built by the dict
literal in `DataGenerator._generate_worker`. -/
structure Record where
  name : String
  age : Nat
  city : String
  salary : Nat
deriving DecidableEq

/-- The closed pool of 5 names in `DataGenerator._generate_name`. -/
def names : List String := ["Alice", "Bob", "Charlie", "David", "Eve"]

/-- The closed pool of 5 cities in `DataGenerator._generate_city`. -/
def cities : List String := ["New York", "Los Angeles", "Chicago", "Houston", "Miami"]

/-- The two exception kinds named by the spec's error taxonomy. The source
code of `generate_data` contains no raise statement and no except clause, so
the embedding never constructs either value. -/
inductive PyErr
  | InvalidConfiguration
  | GenerationFailure
deriving DecidableEq

/-- One record built from four draws of the shared random stream `g`, taken
at stream positions `a, b, c, d` — name, age, city, salary, in the order the
worker's dict literal evaluates them. `random.choice(xs)` is modelled as
`xs[draw % len(xs)]` and `random.randint(lo, hi)` as
`lo + draw % (hi - lo + 1)`, one stream draw per call. -/
def mkRecord4 (g : Nat → Nat) : Nat × Nat × Nat × Nat → Record
  | (a, b, c, d) =>
    { name := names.getD (g a % names.length) ""
      age := 20 + g b % 31
      city := cities.getD (g c % cities.length) ""
      salary := 30000 + g d % 70001 }

/-- The per-worker iteration count: `self.num_records // self.num_threads`
(Python floor division `Int.fdiv`), clamped by `range` semantics — a Python
`for _ in range(k)` loop with `k < 0` runs zero times. -/
def perWorker (num_threads num_records : Int) : Nat :=
  (Int.fdiv num_records num_threads).toNat

/-- The loop of `_generate_worker` under the sequential schedule: `n`
iterations, each drawing four consecutive values from the shared stream `g`
starting at cursor `pos` and pushing one record; returns the pushed records
in push order together with the advanced cursor. -/
def generate_worker (g : Nat → Nat) : Nat → Nat → List Record × Nat
  | 0, pos => ([], pos)
  | n + 1, pos =>
    let x := mkRecord4 g (pos, pos + 1, pos + 2, pos + 3)
    let p := generate_worker g n (pos + 4)
    (x :: p.1, p.2)

/-- The `n` spawned workers, run one after another (the sequential schedule),
each performing `perW` iterations against the shared stream. -/
def run_workers (g : Nat → Nat) (perW : Nat) : Nat → Nat → List Record × Nat
  | 0, pos => ([], pos)
  | n + 1, pos =>
    let p := generate_worker g perW pos
    let q := run_workers g perW n p.2
    (p.1 ++ q.1, q.2)

/-- `DataGenerator.__init__` stores its two arguments as configuration
fields; the source performs no validation of either value. -/
structure DataGenerator where
  num_threads : Int
  num_records : Int
deriving DecidableEq

/-- `DataGenerator.generate_data` under the sequential schedule: spawn
`num_threads` worker threads (none when `num_threads ≤ 0`, since
`range(num_threads)` is then empty), join them all, drain the fresh local
`queue.Queue` and return the collected records. `pos` is the state of the
process-global `random` module before the call; the result carries the
records, the unchanged object and the advanced global cursor. No code path
raises, so the first component is always `Except.ok`. When `num_threads ≤ 0`
the division `num_records // num_threads` only occurs inside worker bodies
that never run, matching the source, where it is never evaluated. -/
def DataGenerator.generate_data (self : DataGenerator) (g : Nat → Nat) (pos : Nat) :
    Except PyErr (List Record) × DataGenerator × Nat :=
  let perW := perWorker self.num_threads self.num_records
  let p := run_workers g perW self.num_threads.toNat pos
  (Except.ok p.1, self, p.2)

/-- The worker loop when the generation step is an injected fallible factory
`f`, called with a running call index: `some` is a produced record, `none` is
a raised exception. Python semantics: the exception kills the worker thread,
records already pushed stay in the shared queue. Returns the pushed records
and the next call index. -/
def workerRun (f : Nat → Option Record) : Nat → Nat → List Record × Nat
  | 0, k => ([], k)
  | n + 1, k =>
    match f k with
    | some x =>
      let p := workerRun f n (k + 1)
      (x :: p.1, p.2)
    | none => ([], k + 1)

/-- The workers with the fallible factory, sequential schedule. -/
def runWorkersF (f : Nat → Option Record) (perW : Nat) : Nat → Nat → List Record × Nat
  | 0, k => ([], k)
  | n + 1, k =>
    let p := workerRun f perW k
    let q := runWorkersF f perW n p.2
    (p.1 ++ q.1, q.2)

/-- `generate_data` when the generation step can fail: every worker thread is
still joined (a dead thread joins immediately), the queue is drained, and
whatever was pushed before any failure is returned normally — the source has
no except clause, so no error is ever reported to the caller. -/
def generate_data_fallible (f : Nat → Option Record) (num_threads num_records : Int) :
    Except PyErr (List Record) :=
  Except.ok (runWorkersF f (perWorker num_threads num_records) num_threads.toNat 0).1

/-- The draw positions (0-based global step indices) belonging to worker `w`,
given a schedule `σ` listing which worker performs each successive draw from
the shared stream; `i` is the index of the head of `σ`. -/
def positionsOf : List Nat → Nat → Nat → List Nat
  | [], _, _ => []
  | a :: rest, w, i =>
    if a = w then i :: positionsOf rest w (i + 1) else positionsOf rest w (i + 1)

/-- Group one worker's draw positions into records: four consecutive draws
(name, age, city, salary) per record. -/
def chunk4 : List Nat → List (Nat × Nat × Nat × Nat)
  | a :: b :: c :: d :: rest => (a, b, c, d) :: chunk4 rest
  | _ => []

/-- The records of a concurrent run with draw schedule `σ`, listed
worker-major (worker 0's records first). -/
def scheduledRecords (g : Nat → Nat) (t : Nat) (σ : List Nat) : List Record :=
  (((List.range t).map fun w => (chunk4 (positionsOf σ w 0)).map (mkRecord4 g))).flatten

/-- A schedule is valid for `t` workers of `perW` records each: every draw
belongs to a spawned worker, and each worker performs exactly `4 * perW`
draws (four per loop iteration). -/
def isSchedule (t perW : Nat) (σ : List Nat) : Bool :=
  σ.all (fun w => decide (w < t)) &&
    (List.range t).all fun w => σ.count w == 4 * perW

/-- `out` is a possible return value of `generate_data`: some interleaving
`σ` of the workers' draws on the shared stream produced it, and the drained
queue order is an interleaving of the workers' push orders — hence a
permutation of the worker-major listing. `queue.Queue` is thread-safe, so no
push is lost or duplicated. -/
def canProduce (g : Nat → Nat) (num_threads num_records : Int) (out : List Record) : Prop :=
  ∃ σ, isSchedule num_threads.toNat (perWorker num_threads num_records) σ = true ∧
    out.Perm (scheduledRecords g num_threads.toNat σ)

/-- The fully sequential schedule: worker 0 performs all its draws, then
worker 1, and so on. -/
def seqSchedule (t perW : Nat) : List Nat :=
  (((List.range t).map fun w => List.replicate (4 * perW) w)).flatten

/-- The field contract of one record: name and city from the closed pools,
age in [20, 50], salary in [30000, 100000]. -/
def recordValid (x : Record) : Bool :=
  names.contains x.name && decide (20 ≤ x.age) && decide (x.age ≤ 50) &&
    cities.contains x.city && decide (30000 ≤ x.salary) && decide (x.salary ≤ 100000)

/-- Default record used only as the `getD` fallback in statements. -/
def defaultRecord : Record := { name := "", age := 0, city := "", salary := 0 }

/-- One CSV data row: `csv.DictWriter.writerow` emits the record's values in
the fixed `fieldnames` order `[name, age, city, salary]`, stringified. -/
def csvRow (x : Record) : List String :=
  [x.name, toString x.age, x.city, toString x.salary]

/-- `CSVWriter.__init__` stores the record list to serialize. -/
structure CSVWriter where
  data : List Record

/-- `CSVWriter.write_to_csv`: a header row followed by one row per record,
in record order. -/
def CSVWriter.write_to_csv (self : CSVWriter) : List (List String) :=
  ["name", "age", "city", "salary"] :: self.data.map csvRow

/-- The all-zero random stream, used for concrete witnesses. -/
def zeroStream : Nat → Nat := fun _ => 0

/-- The identity random stream, used for concrete counterexamples. -/
def idStream : Nat → Nat := fun k => k

/-- A concrete record used by injected-factory scenarios. -/
def demoRecord : Record := { name := "Alice", age := 30, city := "Chicago", salary := 50000 }

/-- An injected factory that deterministically raises on its third call
(call indices 0, 1 succeed; call index 2 fails). -/
def failingFactory : Nat → Option Record :=
  fun k => if k = 2 then none else some demoRecord

/-- A concrete run of 4 workers on 101 requested records. -/
def outC1 : List Record := scheduledRecords zeroStream 4 (seqSchedule 4 25)

/-- A concrete run of 1 worker on 1 requested record. -/
def outC4 : List Record := scheduledRecords zeroStream 1 (seqSchedule 1 1)

/-- A concrete run of 8 workers on 800 requested records. -/
def outC5 : List Record := scheduledRecords zeroStream 8 (seqSchedule 8 100)

/-- Sequential draw schedule for 2 workers of 1 record each. -/
def sigmaA : List Nat := [0, 0, 0, 0, 1, 1, 1, 1]

/-- Alternating draw schedule for 2 workers of 1 record each. -/
def sigmaB : List Nat := [0, 1, 0, 1, 0, 1, 0, 1]

/-- The run produced by `sigmaA` on the identity stream. -/
def outA : List Record := scheduledRecords idStream 2 sigmaA

/-- The run produced by `sigmaB` on the identity stream. -/
def outB : List Record := scheduledRecords idStream 2 sigmaB

/-- A concrete single-worker run on the identity stream. -/
def outC7 : List Record := scheduledRecords idStream 1 (List.replicate 4 0)

/-- Projection used to compare `generate_data` results without deciding
equality of `Except` values. -/
def okRecords : Except PyErr (List Record) → List Record
  | Except.ok l => l
  | Except.error _ => []

theorem generate_worker_fst_length (g : Nat → Nat) :
    ∀ n pos, (generate_worker g n pos).1.length = n := by
  intro n
  induction n with
  | zero => intro pos; rfl
  | succ n ih => intro pos; simp [generate_worker, ih]

theorem generate_worker_snd (g : Nat → Nat) :
    ∀ n pos, (generate_worker g n pos).2 = pos + 4 * n := by
  intro n
  induction n with
  | zero => intro pos; simp [generate_worker]
  | succ n ih => intro pos; simp [generate_worker, ih]; ring

theorem run_workers_fst_length (g : Nat → Nat) (perW : Nat) :
    ∀ n pos, (run_workers g perW n pos).1.length = n * perW := by
  intro n
  induction n with
  | zero => intro pos; simp [run_workers]
  | succ n ih =>
    intro pos
    simp [run_workers, generate_worker_fst_length, ih]
    ring

theorem run_workers_snd (g : Nat → Nat) (perW : Nat) :
    ∀ n pos, (run_workers g perW n pos).2 = pos + 4 * perW * n := by
  intro n
  induction n with
  | zero => intro pos; simp [run_workers]
  | succ n ih =>
    intro pos
    simp [run_workers, generate_worker_snd, ih]
    ring

theorem workerRun_fst_length_le (f : Nat → Option Record) :
    ∀ n k, (workerRun f n k).1.length ≤ n := by
  intro n
  induction n with
  | zero => intro k; simp [workerRun]
  | succ n ih =>
    intro k
    simp only [workerRun]
    cases f k with
    | some x => simpa using ih (k + 1)
    | none => simp

theorem runWorkersF_fst_length_le (f : Nat → Option Record) (perW : Nat) :
    ∀ n k, (runWorkersF f perW n k).1.length ≤ n * perW := by
  intro n
  induction n with
  | zero => intro k; simp [runWorkersF]
  | succ n ih =>
    intro k
    simp only [runWorkersF, List.length_append, Nat.succ_mul]
    have h1 := workerRun_fst_length_le f perW k
    have h2 := ih (workerRun f perW k).2
    omega

theorem positionsOf_length (w : Nat) :
    ∀ (σ : List Nat) (i : Nat), (positionsOf σ w i).length = σ.count w := by
  intro σ
  induction σ with
  | nil => intro i; rfl
  | cons a rest ih =>
    intro i
    simp only [positionsOf, List.count_cons, beq_iff_eq]
    by_cases h : a = w
    · simp [h, ih]
    · simp [h, ih]

theorem chunk4_length : ∀ (l : List Nat), (chunk4 l).length = l.length / 4
  | [] => rfl
  | [_] => by simp [chunk4]
  | [_, _] => by simp [chunk4]
  | [_, _, _] => by simp [chunk4]
  | a :: b :: c :: d :: rest => by
    have ih := chunk4_length rest
    simp only [chunk4, List.length_cons, ih]
    have h4 : rest.length + 1 + 1 + 1 + 1 = rest.length + 4 := by omega
    rw [h4, Nat.add_div_right _ (by omega)]

theorem seqSchedule_succ (t perW : Nat) :
    seqSchedule (t + 1) perW = seqSchedule t perW ++ List.replicate (4 * perW) t := by
  simp [seqSchedule, List.range_succ]

theorem seqSchedule_lt (perW : Nat) :
    ∀ t, ∀ x ∈ seqSchedule t perW, x < t := by
  intro t
  induction t with
  | zero => intro x hx; simp [seqSchedule] at hx
  | succ t ih =>
    intro x hx
    rw [seqSchedule_succ] at hx
    rcases List.mem_append.mp hx with h | h
    · exact Nat.lt_succ_of_lt (ih x h)
    · rcases List.mem_replicate.mp h with ⟨-, h2⟩
      omega

theorem seqSchedule_count (perW : Nat) :
    ∀ t w, w < t → (seqSchedule t perW).count w = 4 * perW := by
  intro t
  induction t with
  | zero => intro w hw; omega
  | succ n ih =>
    intro w hw
    rw [seqSchedule_succ, List.count_append]
    by_cases h : w < n
    · rw [ih w h]
      have hne : n ≠ w := by omega
      have hz : (List.replicate (4 * perW) n).count w = 0 := by
        rw [List.count_eq_zero]
        intro hmem
        exact hne (List.mem_replicate.mp hmem).2.symm
      omega
    · have hwt : w = n := by omega
      have h0 : (seqSchedule n perW).count w = 0 := by
        rw [List.count_eq_zero]
        intro hmem
        exact absurd (seqSchedule_lt perW n w hmem) (by omega)
      rw [h0, hwt, List.count_replicate_self]
      omega

theorem isSchedule_seq (t perW : Nat) : isSchedule t perW (seqSchedule t perW) = true := by
  simp only [isSchedule, Bool.and_eq_true, List.all_eq_true, decide_eq_true_eq, beq_iff_eq]
  constructor
  · exact seqSchedule_lt perW t
  · intro w hw
    exact seqSchedule_count perW t w (List.mem_range.mp hw)

theorem scheduledRecords_length (g : Nat → Nat) (t perW : Nat) (σ : List Nat)
    (h : isSchedule t perW σ = true) : (scheduledRecords g t σ).length = t * perW := by
  simp only [isSchedule, Bool.and_eq_true, List.all_eq_true, decide_eq_true_eq,
    beq_iff_eq] at h
  obtain ⟨-, hcount⟩ := h
  have hlen : ∀ w ∈ List.range t,
      ((chunk4 (positionsOf σ w 0)).map (mkRecord4 g)).length = perW := by
    intro w hw
    rw [List.length_map, chunk4_length, positionsOf_length, hcount w hw,
      Nat.mul_div_cancel_left _ (by omega : 0 < 4)]
  have hmap : (List.range t).map
      (fun w => ((chunk4 (positionsOf σ w 0)).map (mkRecord4 g)).length) =
      List.replicate t perW := by
    have := List.eq_replicate_of_mem (a := perW)
      (l := (List.range t).map fun w => ((chunk4 (positionsOf σ w 0)).map (mkRecord4 g)).length)
      (by
        intro b hb
        rcases List.mem_map.mp hb with ⟨w, hw, rfl⟩
        exact hlen w hw)
    simpa using this
  rw [scheduledRecords, List.length_flatten, List.map_map]
  show ((List.range t).map fun w => ((chunk4 (positionsOf σ w 0)).map (mkRecord4 g)).length).sum
    = t * perW
  rw [hmap, List.sum_replicate, smul_eq_mul]

theorem names_getD_valid : ∀ m, m < 5 → names.contains (names.getD m "") = true := by decide

theorem cities_getD_valid : ∀ m, m < 5 → cities.contains (cities.getD m "") = true := by decide

theorem recordValid_mkRecord4 (g : Nat → Nat) (q : Nat × Nat × Nat × Nat) :
    recordValid (mkRecord4 g q) = true := by
  obtain ⟨a, b, c, d⟩ := q
  simp only [recordValid, mkRecord4, Bool.and_eq_true, decide_eq_true_eq]
  refine ⟨⟨⟨⟨⟨?_, ?_⟩, ?_⟩, ?_⟩, ?_⟩, ?_⟩
  · exact names_getD_valid _ (Nat.mod_lt _ (by decide))
  · omega
  · have := Nat.mod_lt (g b) (show 0 < 31 by decide)
    omega
  · exact cities_getD_valid _ (Nat.mod_lt _ (by decide))
  · omega
  · have := Nat.mod_lt (g d) (show 0 < 70001 by decide)
    omega

theorem mem_scheduledRecords (g : Nat → Nat) (t : Nat) (σ : List Nat) (x : Record)
    (hx : x ∈ scheduledRecords g t σ) : ∃ q, x = mkRecord4 g q := by
  simp only [scheduledRecords, List.mem_flatten, List.mem_map] at hx
  obtain ⟨l, ⟨w, -, rfl⟩, hxl⟩ := hx
  obtain ⟨q, -, rfl⟩ := List.mem_map.mp hxl
  exact ⟨q, rfl⟩

theorem scheduledRecords_all_valid (g : Nat → Nat) (t : Nat) (σ : List Nat) :
    (scheduledRecords g t σ).all recordValid = true := by
  rw [List.all_eq_true]
  intro x hx
  obtain ⟨q, rfl⟩ := mem_scheduledRecords g t σ x hx
  exact recordValid_mkRecord4 g q

theorem canProduce_length (g : Nat → Nat) (t r : Int) (out : List Record)
    (h : canProduce g t r out) : out.length = t.toNat * perWorker t r := by
  obtain ⟨σ, hσ, hperm⟩ := h
  rw [hperm.length_eq]
  exact scheduledRecords_length g t.toNat (perWorker t r) σ hσ

theorem canProduce_all_valid (g : Nat → Nat) (t r : Int) (out : List Record)
    (h : canProduce g t r out) : out.all recordValid = true := by
  obtain ⟨σ, -, hperm⟩ := h
  rw [List.all_eq_true]
  intro x hx
  obtain ⟨q, rfl⟩ := mem_scheduledRecords g t.toNat σ x (hperm.mem_iff.mp hx)
  exact recordValid_mkRecord4 g q

theorem schedule_one_eq_replicate (perW : Nat) (σ : List Nat)
    (h : isSchedule 1 perW σ = true) : σ = List.replicate (4 * perW) 0 := by
  simp only [isSchedule, Bool.and_eq_true, List.all_eq_true, decide_eq_true_eq,
    beq_iff_eq] at h
  obtain ⟨hlt, hcount⟩ := h
  have hz : ∀ b ∈ σ, b = 0 := by
    intro b hb
    have := hlt b hb
    omega
  have hrep := List.eq_replicate_of_mem hz
  have hlen : σ.length = 4 * perW := by
    have hc := hcount 0 (by simp)
    rw [List.count_eq_length.mpr (fun b hb => (hz b hb).symm)] at hc
    exact hc
  rw [hrep, hlen]

theorem fdiv_toNat_zero_of_neg (r t : Int) (hr : r < 0) (ht : 0 < t) :
    (Int.fdiv r t).toNat = 0 := by
  obtain ⟨m, rfl⟩ := Int.eq_negSucc_of_lt_zero hr
  obtain ⟨n, rfl⟩ := Int.eq_succ_of_zero_lt ht
  rfl

theorem generate_data_of_nonpos (t r : Int) (g : Nat → Nat) (pos : Nat) (h : t ≤ 0) :
    DataGenerator.generate_data ⟨t, r⟩ g pos = (Except.ok [], ⟨t, r⟩, pos) := by
  have h0 : t.toNat = 0 := Int.toNat_of_nonpos h
  simp [DataGenerator.generate_data, h0, run_workers]

theorem getD_map_of_lt (l : List Record) (i : Nat) (h : i < l.length) :
    (l.map csvRow).getD i [] = csvRow (l.getD i defaultRecord) := by
  induction l generalizing i with
  | nil => simp at h
  | cons a rest ih =>
    cases i with
    | zero => rfl
    | succ i =>
      simp only [List.map_cons, List.getD_cons_succ]
      exact ih i (by simpa using h)

/-- C1: for every worker count ≥ 1 and record total ≥ 0, every sequence that
`generate_data` can return (under any worker interleaving) has length
`(total_records // worker_count) * worker_count` — Python floor division,
with any remainder records silently dropped. -/
theorem C1_generate_data_length (g : Nat → Nat) (t r : Int) (out : List Record)
    (ht : 1 ≤ t) (hr : 0 ≤ r) (h : canProduce g t r out) :
    out.length = (Int.fdiv r t * t).toNat := by
  rw [canProduce_length g t r out h]
  have hq : 0 ≤ Int.fdiv r t := Int.fdiv_nonneg hr (by omega)
  obtain ⟨m, hm⟩ := Int.eq_ofNat_of_zero_le hq
  obtain ⟨n, hn⟩ := Int.eq_ofNat_of_zero_le (by omega : (0:Int) ≤ t)
  simp only [perWorker]
  rw [hm, hn, Int.toNat_ofNat, Int.toNat_ofNat, ← Nat.cast_mul, Int.toNat_ofNat]
  exact Nat.mul_comm n m

/-- C1 witness: `generate_data(4, 101)` returns exactly 100 records. -/
theorem C1_generate_data_length_witness :
    (1:Int) ≤ 4 ∧ (0:Int) ≤ 101 ∧ canProduce zeroStream 4 101 outC1 ∧
      outC1.length = 100 := by
  have hps : perWorker 4 101 = 25 := by decide
  have hcan : canProduce zeroStream 4 101 outC1 := by
    refine ⟨seqSchedule 4 25, ?_, List.Perm.refl _⟩
    rw [show ((4:Int)).toNat = 4 from rfl, hps]
    exact isSchedule_seq 4 25
  refine ⟨by decide, by decide, hcan, ?_⟩
  rw [C1_generate_data_length zeroStream 4 101 outC1 (by decide) (by decide) hcan]
  decide

/-- C2 counterexample: with an injected generation step that deterministically
fails on its third call, `generate_data` (1 worker, 5 requested records)
returns a truncated success of 2 records — it does not surface a
`GenerationFailure`, and the partial data is not discarded, so the caller does
not observe all-or-nothing. -/
theorem C2_counterexample :
    generate_data_fallible failingFactory 1 5 = Except.ok [demoRecord, demoRecord] ∧
      [demoRecord, demoRecord] ≠ ([] : List Record) ∧
      ([demoRecord, demoRecord] : List Record).length ≠ perWorker 1 5 :=
  ⟨rfl, by decide, by decide⟩

/-- C2 amended: if a worker's generation step fails, that worker stops
producing, but `generate_data` still joins all workers and then returns
normally whatever records were pushed before the failure — a possibly
truncated sequence of at most `(num_records // num_threads) * num_threads`
records, never an error and not an all-or-nothing result. -/
theorem C2_amended_truncated_success (f : Nat → Option Record) (t r : Int) :
    ∃ l, generate_data_fallible f t r = Except.ok l ∧
      l.length ≤ perWorker t r * t.toNat := by
  refine ⟨_, rfl, ?_⟩
  have h := runWorkersF_fst_length_le f (perWorker t r) t.toNat 0
  simpa [Nat.mul_comm] using h

/-- C3 counterexample: `generate_data` with worker count 0 does not raise
`InvalidConfiguration`; it returns the empty list normally. -/
theorem C3_counterexample :
    (DataGenerator.generate_data ⟨0, 5⟩ zeroStream 0).1 = Except.ok [] ∧
      (DataGenerator.generate_data ⟨0, 5⟩ zeroStream 0).1 ≠
        Except.error PyErr.InvalidConfiguration := by
  have h1 : (DataGenerator.generate_data ⟨0, 5⟩ zeroStream 0).1 = Except.ok [] := rfl
  refine ⟨h1, ?_⟩
  rw [h1]
  simp

/-- C3 amended: the source performs no validation at all — for any
non-positive worker count, and likewise for any negative record total,
`generate_data` returns the empty list normally and raises nothing. -/
theorem C3_amended_no_validation (t r : Int) (g : Nat → Nat) (pos : Nat)
    (h : t ≤ 0 ∨ r < 0) :
    (DataGenerator.generate_data ⟨t, r⟩ g pos).1 = Except.ok [] := by
  rcases h with h | h
  · rw [generate_data_of_nonpos t r g pos h]
  · by_cases ht : t ≤ 0
    · rw [generate_data_of_nonpos t r g pos ht]
    · have hperW : perWorker t r = 0 := fdiv_toNat_zero_of_neg r t h (by omega)
      simp only [DataGenerator.generate_data, hperW]
      have hnil : (run_workers g 0 (Int.toNat t) pos).1 = [] := by
        apply List.length_eq_zero.mp
        rw [run_workers_fst_length]
        omega
      rw [hnil]

/-- C3 witness: applying the amended statement at worker count 0. -/
theorem C3_amended_no_validation_witness :
    ((0:Int) ≤ 0 ∨ (5:Int) < 0) ∧
      (DataGenerator.generate_data ⟨0, 5⟩ idStream 3).1 = Except.ok [] :=
  ⟨Or.inl (by decide), C3_amended_no_validation 0 5 idStream 3 (Or.inl (by decide))⟩

/-- C4: every record in any sequence `generate_data` can return has its name
in the closed 5-name pool, its city in the closed 5-city pool, age in
[20, 50] and salary in [30000, 100000] (the conjunction `recordValid`). -/
theorem C4_record_fields_valid (g : Nat → Nat) (t r : Int) (out : List Record)
    (h : canProduce g t r out) : out.all recordValid = true :=
  canProduce_all_valid g t r out h

/-- C4 witness: a concrete one-worker, one-record run. -/
theorem C4_record_fields_valid_witness :
    canProduce zeroStream 1 1 outC4 ∧ outC4.all recordValid = true := by
  have hcan : canProduce zeroStream 1 1 outC4 := by
    refine ⟨seqSchedule 1 1, ?_, List.Perm.refl _⟩
    have hps : perWorker 1 1 = 1 := by decide
    rw [show ((1:Int)).toNat = 1 from rfl, hps]
    exact isSchedule_seq 1 1
  exact ⟨hcan, C4_record_fields_valid zeroStream 1 1 outC4 hcan⟩

/-- C5: with 8 workers and 800 requested records, no interleaving of the
concurrent pushes loses or duplicates a record: every possible result has
exactly 800 records, each satisfying the field constraints. -/
theorem C5_concurrent_8x800 (g : Nat → Nat) (out : List Record)
    (h : canProduce g 8 800 out) :
    out.length = 800 ∧ out.all recordValid = true := by
  constructor
  · rw [canProduce_length g 8 800 out h]
    decide
  · exact canProduce_all_valid g 8 800 out h

/-- C5 witness: a concrete 8-worker, 800-record run. -/
theorem C5_concurrent_8x800_witness :
    canProduce zeroStream 8 800 outC5 ∧ outC5.length = 800 ∧
      outC5.all recordValid = true := by
  have hcan : canProduce zeroStream 8 800 outC5 := by
    refine ⟨seqSchedule 8 100, ?_, List.Perm.refl _⟩
    have hps : perWorker 8 800 = 100 := by decide
    rw [show ((8:Int)).toNat = 8 from rfl, hps]
    exact isSchedule_seq 8 100
  obtain ⟨h2, h3⟩ := C5_concurrent_8x800 zeroStream outC5 hcan
  exact ⟨hcan, h2, h3⟩

/-- C6 counterexample: the generation step is not injectable and reads the
ambient process-global `random` module — the same configuration and the same
stream produce different records when the global cursor differs, so the
output is not a function of the call's arguments alone. -/
theorem C6_counterexample :
    okRecords (DataGenerator.generate_data ⟨1, 1⟩ idStream 0).1 ≠
      okRecords (DataGenerator.generate_data ⟨1, 1⟩ idStream 4).1 := by
  decide

/-- C6 amended: the record-generation step draws from the shared
process-global random source (Python's `random` module), which the code does
not allow a caller to inject: every call advances the ambient global cursor
by four draws per generated record, across all workers. -/
theorem C6_amended_global_source (self : DataGenerator) (g : Nat → Nat) (pos : Nat) :
    (self.generate_data g pos).2.2 =
      pos + 4 * perWorker self.num_threads self.num_records * self.num_threads.toNat := by
  simp only [DataGenerator.generate_data]
  exact run_workers_snd g _ _ pos

/-- C7 counterexample: two runs with the same deterministic stream and the
same configuration (2 workers, 2 records) are not permutation-equal when the
worker interleavings differ, because all workers share the one global random
source. -/
theorem C7_counterexample :
    canProduce idStream 2 2 outA ∧ canProduce idStream 2 2 outB ∧
      ¬ outA.Perm outB :=
  ⟨⟨sigmaA, by decide, List.Perm.refl _⟩, ⟨sigmaB, by decide, List.Perm.refl _⟩, by decide⟩

/-- C7 amended: with a single worker there is only one possible draw
schedule, so two runs with the same stream and the same record total are
permutation-equal; with two or more workers the shared global source makes
the multiset of records depend on the interleaving. -/
theorem C7_amended_single_worker (g : Nat → Nat) (r : Int) (out1 out2 : List Record)
    (h1 : canProduce g 1 r out1) (h2 : canProduce g 1 r out2) : out1.Perm out2 := by
  obtain ⟨σ1, hs1, hp1⟩ := h1
  obtain ⟨σ2, hs2, hp2⟩ := h2
  rw [show ((1:Int)).toNat = 1 from rfl] at hs1 hs2 hp1 hp2
  rw [schedule_one_eq_replicate _ σ1 hs1] at hp1
  rw [schedule_one_eq_replicate _ σ2 hs2] at hp2
  exact hp1.trans hp2.symm

/-- C7 witness: applying the amended statement to a concrete one-worker run. -/
theorem C7_amended_single_worker_witness :
    canProduce idStream 1 1 outC7 ∧ outC7.Perm outC7 := by
  have hcan : canProduce idStream 1 1 outC7 :=
    ⟨List.replicate 4 0, by decide, List.Perm.refl _⟩
  exact ⟨hcan, C7_amended_single_worker idStream 1 outC7 outC7 hcan hcan⟩

/-- C8: `write_to_csv` emits one row per record, in record order after the
header, with each row holding the record's fields in the fixed column order
[name, age, city, salary]. -/
theorem C8_csv_row_order (data : List Record) (i : Nat) (h : i < data.length) :
    (CSVWriter.write_to_csv ⟨data⟩).length = data.length + 1 ∧
      (CSVWriter.write_to_csv ⟨data⟩).getD (i + 1) [] =
        [(data.getD i defaultRecord).name, toString (data.getD i defaultRecord).age,
          (data.getD i defaultRecord).city, toString (data.getD i defaultRecord).salary] := by
  constructor
  · simp [CSVWriter.write_to_csv]
  · simp only [CSVWriter.write_to_csv, List.getD_cons_succ]
    rw [getD_map_of_lt data i h]
    rfl

/-- C8 witness: serializing one concrete record. -/
theorem C8_csv_row_order_witness :
    0 < ([demoRecord] : List Record).length ∧
      (CSVWriter.write_to_csv ⟨[demoRecord]⟩).length = 2 ∧
      (CSVWriter.write_to_csv ⟨[demoRecord]⟩).getD 1 [] =
        ["Alice", "30", "Chicago", "50000"] := by
  have h := C8_csv_row_order [demoRecord] 0 (by decide)
  refine ⟨by decide, h.1, ?_⟩
  rw [h.2]
  rfl

/-- C9: for every non-positive worker count and any record total,
`generate_data` spawns no workers, raises nothing, consumes no draws from the
global source, and returns the empty list. -/
theorem C9_nonpos_workers_empty (t r : Int) (g : Nat → Nat) (pos : Nat) (h : t ≤ 0) :
    DataGenerator.generate_data ⟨t, r⟩ g pos = (Except.ok [], ⟨t, r⟩, pos) :=
  generate_data_of_nonpos t r g pos h

/-- C9 witness: a negative worker count with a positive record total. -/
theorem C9_nonpos_workers_empty_witness :
    ((-1:Int) ≤ 0) ∧
      DataGenerator.generate_data ⟨-1, 7⟩ zeroStream 5 = (Except.ok [], ⟨-1, 7⟩, 5) :=
  ⟨by decide, C9_nonpos_workers_empty (-1) 7 zeroStream 5 (by decide)⟩

/-- C10: `generate_data` never mutates the configuration — the object after
the call equals the object at construction — and every call independently
returns a normal result whose length satisfies the
`(num_records // num_threads) * num_threads` postcondition, regardless of the
ambient state `pos` left by earlier calls (each call drains its own fresh
local queue). -/
theorem C10_config_frame (self : DataGenerator) (g : Nat → Nat) (pos : Nat) :
    (self.generate_data g pos).2.1 = self ∧
      ∃ l, (self.generate_data g pos).1 = Except.ok l ∧
        l.length = self.num_threads.toNat * perWorker self.num_threads self.num_records := by
  refine ⟨rfl, _, rfl, ?_⟩
  exact run_workers_fst_length g _ _ pos

end QueueMT
